import Mathlib

set_option maxRecDepth 100000

/-!
Verification development for the surefire-to-ctrf report converters.

The repository contains two independent conversion pipelines written in
TypeScript: a TestNG XML to CTRF JSON converter (function names
parseTestNGReport, convertToCTRFTest, createCTRFReport, convertTestngToCTRF)
and a JUnit XML to CTRF JSON converter (parseJUnitReport, convertToCTRFTest,
createCTRFReport, convertJUnitToCTRF).  Both operate on the tree produced by
the xml2js library.  This file embeds the two pipelines shallowly:

* XML trees are embedded as the records xml2js produces: an element's
  attribute bag (the dollar key) is an optional association list, a child
  element key is a list of child values (xml2js produces the key exactly when
  at least one child exists, so an absent key is represented by the empty
  list except where the code distinguishes the two cases), and a child that
  is pure text is a plain string while a child carrying attributes is an
  object whose optional underscore field holds its text.
* JavaScript number semantics (parseInt, parseFloat, multiplication,
  Math.round) are embedded exactly for finite IEEE-754 binary64 values via
  integer pairs m * 2^e together with round-to-nearest-ties-to-even, with
  NaN and the two infinities as explicit constructors.  Negative zero is
  identified with zero (the distinction is unobservable in the JSON output,
  JSON.stringify prints both as 0).
* The Date parsing builtin used by the TestNG converter's parseDate helper
  is an external capability of the JavaScript runtime; it is taken as an
  explicit function parameter (jsDate) everywhere, exactly as the xml2js
  parser itself is out of scope.
* Promise rejection is embedded as Except.error; the output file write
  happens strictly after the conversion promise resolves, so a rejected
  conversion produces no report value to write.
-/

namespace JsSem

/-- JavaScript truthiness of a value that is either undefined (represented by
none) or a string: undefined and the empty string are falsy, every other
string is truthy. -/
def jsTruthyS : Option String → Bool
  | none => false
  | some s => !(s == "")

/-- JavaScript ToString coercion of a possibly-undefined string argument, as
performed by parseInt and parseFloat: undefined stringifies to the literal
word undefined (which then parses as NaN). -/
def jsStrOfOpt : Option String → String
  | none => "undefined"
  | some s => s

/-- JavaScript logical-or defaulting of a possibly-undefined string against a
string literal, as in the source pattern x or-else default: the default is
used when x is undefined or the empty string (both falsy). -/
def jsOrD (a : Option String) (d : String) : String :=
  match a with
  | none => d
  | some s => if s = "" then d else s

/-- ASCII lower-casing, modelling the JavaScript toLowerCase call on the
status attribute values (widely used status tokens are ASCII; the embedding
does not model Unicode case mapping beyond ASCII). -/
def jsToLower (s : String) : String :=
  String.mk (s.data.map Char.toLower)

/-- Numeric value of a list of decimal digit characters. -/
def natOfDigits (ds : List Char) : Nat :=
  ds.foldl (fun acc c => 10 * acc + (c.toNat - 48)) 0

/-- Digit-prefix parse shared by the parseInt embedding: none when the list
does not start with a decimal digit (the NaN case). -/
def jsParseIntSigned (cs : List Char) (neg : Bool) : Option Int :=
  let ds := cs.takeWhile Char.isDigit
  if ds.isEmpty then none
  else some (if neg then -(natOfDigits ds : Int) else (natOfDigits ds : Int))

/-- JavaScript parseInt(s, 10): skip leading whitespace, read one optional
sign, then the longest prefix of decimal digits; NaN (none) when no digit
follows.  Trailing junk is ignored. -/
def jsParseInt (s : String) : Option Int :=
  match s.data.dropWhile Char.isWhitespace with
  | '+' :: r => jsParseIntSigned r false
  | '-' :: r => jsParseIntSigned r true
  | cs => jsParseIntSigned cs false

/-- parseInt(x, 10) applied to a possibly-undefined attribute value. -/
def jsParseIntOpt (a : Option String) : Option Int :=
  jsParseInt (jsStrOfOpt a)

/-- The source pattern parseInt(x, 10) or-else 0: NaN is falsy and defaults
to 0; the integer 0 itself is also falsy and the or-else yields the literal
0, which coincides with it, so the result is the parsed value with NaN
replaced by 0. -/
def jsParseIntD0 (a : Option String) : Int :=
  (jsParseIntOpt a).getD 0

/-- One finite IEEE-754 binary64 value, represented exactly as m * 2^e.  The
representation is not normalised; only the denoted rational matters. -/
structure F64 where
  m : Int
  e : Int
deriving DecidableEq, Repr

/-- A JavaScript number: NaN, a signed infinity, or a finite binary64
value. -/
inductive JsNum where
  | nan
  | inf (neg : Bool)
  | fin (x : F64)
deriving DecidableEq, Repr

/-- Rational power of two with integer exponent. -/
def qpow2 (z : Int) : ℚ :=
  if 0 ≤ z then (2 : ℚ) ^ z.toNat else ((2 : ℚ) ^ (-z).toNat)⁻¹

/-- Exact rational value denoted by a finite binary64 value. -/
def f64Val (x : F64) : ℚ :=
  (x.m : ℚ) * qpow2 x.e

/-- Modelled from the spec words only, for comparison with the code:
rounding to the nearest integer with ties broken away from zero, the rule
the specification pins the duration conversion to. -/
def specRoundHalfAwayFromZero (q : ℚ) : Int :=
  if 0 ≤ q then ⌊q + 1 / 2⌋ else -⌊-q + 1 / 2⌋

/-- Largest additional power count: starting from d, how many doublings keep
d * 2^count at or below num.  A fuel-bounded linear scan; the fuel is chosen
large enough that it is never exhausted on the guarded call sites. -/
def flog2Go : Nat → Nat → Nat → Nat → Nat
  | 0, _, _, acc => acc
  | fuel + 1, num, d, acc =>
      if 2 * d ≤ num then flog2Go fuel num (2 * d) (acc + 1) else acc

/-- Round the nonnegative fraction a / b (with b positive) to the nearest
natural number, ties to even. -/
def rneNat (a b : Nat) : Nat :=
  let q := a / b
  let r := a % b
  if 2 * r < b then q
  else if b < 2 * r then q + 1
  else if q % 2 = 0 then q else q + 1

/-- Round the positive rational num / den (num and den positive) to the
nearest IEEE-754 binary64 value, ties to even, including gradual underflow
to subnormals and overflow to infinity.  Values at or below 2^-1098 round to
zero and values at or above 2^1098 overflow, which is sound because the
nearest double of anything beyond those guards is 0 or infinity anyway. -/
def roundPosC (num den : Nat) : JsNum :=
  if den * 2 ^ 1098 ≤ num then .inf false
  else if num * 2 ^ 1098 ≤ den then .fin ⟨0, 0⟩
  else
    let e0 : Int := (flog2Go 2200 (num * 2 ^ 1100) den 0 : Int) - 1100
    let k : Int := min (52 - e0) 1074
    let mant : Nat :=
      if 0 ≤ k then rneNat (num * 2 ^ k.toNat) den
      else rneNat num (den * 2 ^ (-k).toNat)
    if 1024 + k < 0 then .inf false
    else if 2 ^ (1024 + k).toNat ≤ mant then .inf false
    else .fin ⟨(mant : Int), -k⟩

/-- Round the signed rational (so num / den negated when neg) to the nearest
binary64 value. -/
def mkFinite (neg : Bool) (num den : Nat) : JsNum :=
  if num = 0 then .fin ⟨0, 0⟩
  else
    match roundPosC num den with
    | .fin x => .fin ⟨if neg then -x.m else x.m, x.e⟩
    | .inf _ => .inf neg
    | .nan => .nan

/-- IEEE-754 binary64 multiplication of two finite values: the exact product
m1 * m2 * 2^(e1+e2) rounded to the nearest double. -/
def mulF64 (x y : F64) : JsNum :=
  let p : Int := x.m * y.m
  let E : Int := x.e + y.e
  if 0 ≤ E then mkFinite (decide (p < 0)) (p.natAbs * 2 ^ E.toNat) 1
  else mkFinite (decide (p < 0)) p.natAbs (2 ^ (-E).toNat)

/-- JavaScript number multiplication including the NaN and infinity rules:
NaN is absorbing, infinity times zero is NaN, infinity times a nonzero
value is a sign-adjusted infinity. -/
def jsMul : JsNum → JsNum → JsNum
  | .nan, _ => .nan
  | .inf _, .nan => .nan
  | .fin _, .nan => .nan
  | .inf s, .inf t => .inf (s != t)
  | .inf s, .fin y => if y.m = 0 then .nan else .inf (s != decide (y.m < 0))
  | .fin x, .inf t => if x.m = 0 then .nan else .inf (t != decide (x.m < 0))
  | .fin x, .fin y => mulF64 x y

/-- JavaScript Math.round: NaN and infinities pass through; a finite value
x maps to the integral value floor(x + 1/2), the integer nearest to x with
ties toward positive infinity.  Computed exactly on the m * 2^e form. -/
def jsMathRound : JsNum → JsNum
  | .nan => .nan
  | .inf s => .inf s
  | .fin x =>
      if 0 ≤ x.e then .fin ⟨x.m * 2 ^ x.e.toNat, 0⟩
      else
        let f := (-x.e).toNat
        .fin ⟨Int.fdiv (2 * x.m + 2 ^ f) (2 ^ (f + 1)), 0⟩

/-- Exponent digits of an exponent part, none when absent. -/
def expDigits (r : List Char) : Option Nat :=
  let ds := r.takeWhile Char.isDigit
  if ds.isEmpty then none else some (natOfDigits ds)

/-- Optional exponent part of a JavaScript decimal literal: e or E, an
optional sign, then digits.  When the digits are missing the exponent part
is not a valid continuation of the literal and the longest valid prefix
ends before it, so the contributed exponent is 0. -/
def parseExpPart : List Char → Int
  | [] => 0
  | c :: rest =>
      if c = 'e' ∨ c = 'E' then
        match rest with
        | '+' :: r => ((expDigits r).getD 0 : Nat)
        | '-' :: r => -(((expDigits r).getD 0 : Nat) : Int)
        | r => ((expDigits r).getD 0 : Nat)
      else 0

/-- Exact decimal value (-1)^neg * mant * 10^p rounded to the nearest
binary64 value, as the ECMAScript numeric conversion requires. -/
def f64OfDecimal (neg : Bool) (mant : Nat) (p : Int) : JsNum :=
  if 0 ≤ p then mkFinite neg (mant * 10 ^ p.toNat) 1
  else mkFinite neg mant (10 ^ (-p).toNat)

/-- Unsigned part of the parseFloat grammar: the Infinity literal, or
digits with an optional dot, fraction digits and exponent part; NaN when no
digit is found. -/
def parseUnsignedFloat (cs : List Char) (neg : Bool) : JsNum :=
  if cs.take 8 = "Infinity".data then .inf neg
  else
    let d1 := cs.takeWhile Char.isDigit
    let r1 := cs.dropWhile Char.isDigit
    match r1 with
    | '.' :: r2 =>
        let d2 := r2.takeWhile Char.isDigit
        let r3 := r2.dropWhile Char.isDigit
        if d1.isEmpty ∧ d2.isEmpty then .nan
        else f64OfDecimal neg (natOfDigits (d1 ++ d2)) (parseExpPart r3 - d2.length)
    | _ =>
        if d1.isEmpty then .nan
        else f64OfDecimal neg (natOfDigits d1) (parseExpPart r1)

/-- JavaScript parseFloat: skip leading whitespace, one optional sign, then
the longest prefix matching a decimal literal or the Infinity literal;
NaN when none matches.  Trailing junk is ignored. -/
def jsParseFloat (s : String) : JsNum :=
  match s.data.dropWhile Char.isWhitespace with
  | '+' :: r => parseUnsignedFloat r false
  | '-' :: r => parseUnsignedFloat r true
  | cs => parseUnsignedFloat cs false

/-- The JavaScript number 1000 (exactly representable). -/
def f1000 : JsNum := .fin ⟨1000, 0⟩

/-- Splitting a character list at every occurrence of the separator, the
semantics of the JavaScript String.split method with a one-character
separator string and no limit argument. -/
def jsSplitChAux (sep : Char) : List Char → List Char → List String
  | [], acc => [String.mk acc.reverse]
  | c :: rest, acc =>
      if c = sep then String.mk acc.reverse :: jsSplitChAux sep rest []
      else jsSplitChAux sep rest (c :: acc)

/-- JavaScript s.split(sep) for a one-character separator: always a
nonempty list of the separated segments. -/
def jsSplitCh (sep : Char) (s : String) : List String :=
  jsSplitChAux sep s.data []

/-- A JavaScript plain object whose values are strings or undefined,
modelled by its entry list in insertion order (keys distinct). -/
abbrev JsObj := List (String × Option String)

/-- Property assignment on a JavaScript object: an existing key keeps its
position and gets the new value, a new key is appended. -/
def setEntry : JsObj → String → Option String → JsObj
  | [], k, v => [(k, v)]
  | (k0, v0) :: rest, k, v =>
      if k0 = k then (k0, v) :: rest else (k0, v0) :: setEntry rest k v

/-- Object.fromEntries: build an object from a list of key-value pairs;
later pairs with the same key overwrite earlier ones. -/
def fromEntries (l : List (String × Option String)) : JsObj :=
  l.foldl (fun o e => setEntry o e.1 e.2) []

/-- Property read on a JavaScript object: none when the key is absent,
otherwise the stored (possibly undefined) value. -/
def objGet (o : JsObj) (k : String) : Option (Option String) :=
  (o.find? (fun e => e.1 == k)).map (·.2)

/-- The entry a property string contributes under Object.fromEntries applied
to prop.split("="): the key is the segment before the first equals sign and
the value is the element at index 1 of the split, which is the segment
strictly between the first and the second equals sign (undefined when the
string has no equals sign at all). -/
def envEntry (p : String) : String × Option String :=
  ((jsSplitCh '=' p).headD "", (jsSplitCh '=' p).get? 1)

/-- The environment object built from the KEY=value property strings: each
string is split on every equals sign and the resulting arrays are fed to
Object.fromEntries. -/
def buildEnv (props : List String) : JsObj :=
  fromEntries (props.map envEntry)

/-- An xml2js attribute bag (the dollar key of an element), an association
list from attribute names to their string values. -/
abbrev AttrBag := List (String × String)

/-- Attribute lookup on an attribute bag; none models undefined. -/
def getAttr (b : AttrBag) (k : String) : Option String :=
  (b.find? (fun e => e.1 == k)).map (·.2)

/-- Stub for the JavaScript Date builtin used to instantiate the date
parameter in concrete evaluations: a runtime in which every date string is
invalid.  The claims under verification do not depend on dates. -/
def dateStub : String → Option Int := fun _ => none

end JsSem

deriving instance DecidableEq for Except

/-- The CTRF status enumeration (type CtrfTestState in the source). -/
inductive CtrfTestState where
  | passed
  | failed
  | skipped
  | pending
  | other
deriving DecidableEq, BEq, Repr

/-- The tool descriptor of a CTRF report. -/
structure Tool where
  name : String
deriving DecidableEq, Repr

namespace Testng

open JsSem

/-- An exception child element of a test-method element: xml2js lists of the
message children and the full-stacktrace children (text content). -/
structure TException where
  message : List String
  fullStacktrace : List String
deriving DecidableEq, Repr

/-- A test-method element: its optional attribute bag and its exception
children (the empty list models an absent exception key; the code only uses
index 0 behind optional chaining, which treats both alike). -/
structure TMethod where
  dollar : Option AttrBag
  exception : List TException
deriving DecidableEq, Repr

/-- A class element: its optional test-method child array (the code checks
presence and Array.isArray before iterating). -/
structure TClass where
  testMethod : Option (List TMethod)
deriving DecidableEq, Repr

/-- A test element: its optional attribute bag and optional class child
array (the field name class is reserved in Lean, hence cls). -/
structure TTest where
  dollar : Option AttrBag
  cls : Option (List TClass)
deriving DecidableEq, Repr

/-- A suite element: its optional attribute bag and optional test child
array. -/
structure TSuite where
  dollar : Option AttrBag
  test : Option (List TTest)
deriving DecidableEq, Repr

/-- The testng-results root element: its optional attribute bag and its
suite children (an absent suite key and an empty suite array both make the
head lookup fail, so they are modelled together as a list). -/
structure TRoot where
  dollar : Option AttrBag
  suite : List TSuite
deriving DecidableEq, Repr

/-- The intermediate TestNGTestCase record of the source. -/
structure TestNGTestCase where
  name : String
  status : String
  duration : Int
  startTime : Int
  endTime : Int
  message : Option String
  trace : Option String
deriving DecidableEq, Repr

/-- The TestNGResults record of the source. -/
structure TestNGResults where
  total : Int
  passed : Int
  failed : Int
  skipped : Int
  ignored : Int
  startTime : Int
  endTime : Int
  suiteName : String
deriving DecidableEq, Repr

/-- The parseDate helper of the source: try the Date builtin on the whole
string; if that yields an invalid date, retry on the segment before the
first space; otherwise 0.  An undefined argument makes the first attempt
invalid and the fallback split throw, which the surrounding catch turns
into 0. -/
def parseDate (jsDate : String → Option Int) : Option String → Int
  | none => 0
  | some s =>
      match jsDate s with
      | some t => t
      | none => (jsDate ((jsSplitCh ' ' s).headD "")).getD 0

/-- The guard of line 181 of the TestNG converter: the first entry of a
message or full-stacktrace child list, dropped when absent or empty (the
assignment is guarded by the truthiness of the text). -/
def firstExnText (l : List String) : Option String :=
  match l.head? with
  | some s => if s = "" then none else some s
  | none => none

/-- Whether a test-method is marked as a configuration method: its is_config
attribute is the literal string true (an absent attribute bag is treated
as no marker here; the caller checks the bag separately). -/
def isConfigTrue (m : TMethod) : Bool :=
  getAttr (m.dollar.getD []) "is_config" == some "true"

/-- The TestNGTestCase record built for one test-method of one test element,
reading the attribute bags (the caller has established they are present):
composite name with falsy-defaulted parts, lower-cased status defaulted to
other, duration-ms parsed with default 0, timestamps via parseDate, and
message and trace from the first exception child. -/
def mkCaseOf (jsDate : String → Option Int) (t : TTest) (m : TMethod) : TestNGTestCase :=
  let tb := t.dollar.getD []
  let mb := m.dollar.getD []
  { name := jsOrD (getAttr tb "name") "Unknown Test" ++ ": " ++
      jsOrD (getAttr mb "name") "Unknown Method",
    status := jsToLower (jsOrD (getAttr mb "status") "other"),
    duration := jsParseIntD0 (getAttr mb "duration-ms"),
    startTime := parseDate jsDate (getAttr mb "started-at"),
    endTime := parseDate jsDate (getAttr mb "finished-at"),
    message := (m.exception.head?).bind (fun ex => firstExnText ex.message),
    trace := (m.exception.head?).bind (fun ex => firstExnText ex.fullStacktrace) }

/-- Lines 167 to 194 of the TestNG converter, the body of the test-method
loop: skip a method with no attribute bag or with is_config equal to true;
a missing test attribute bag makes the name template throw inside the
per-method try, which drops that single method. -/
def mkMethodCase (jsDate : String → Option Int) (t : TTest) (m : TMethod) :
    Option TestNGTestCase :=
  match m.dollar with
  | none => none
  | some mb =>
      if getAttr mb "is_config" == some "true" then none
      else
        match t.dollar with
        | none => none
        | some _ => some (mkCaseOf jsDate t m)

/-- The test case walk of parseTestNGReport: iterate test, class and
test-method children, skipping levels whose child array is missing. -/
def mkTestCases (jsDate : String → Option Int) (suite : TSuite) : List TestNGTestCase :=
  match suite.test with
  | none => []
  | some ts =>
      ts.flatMap fun t =>
        match t.cls with
        | none => []
        | some cs =>
            cs.flatMap fun c =>
              match c.testMethod with
              | none => []
              | some ms => ms.filterMap (mkMethodCase jsDate t)

/-- The flattened list of test-method elements of a suite, each paired with
its enclosing test element, in walk order; the same guards as the walk of
mkTestCases (missing child arrays contribute nothing). -/
def methodPairs (suite : TSuite) : List (TTest × TMethod) :=
  match suite.test with
  | none => []
  | some ts =>
      ts.flatMap fun t =>
        match t.cls with
        | none => []
        | some cs =>
            cs.flatMap fun c =>
              match c.testMethod with
              | none => []
              | some ms => ms.map (fun m => (t, m))

/-- The beforeSuite lookup of parseTestNGReport: flatten test, class and
test-method children (absent arrays become empty) and find the first method
whose attribute bag exists and names it beforeSuite. -/
def findBeforeSuite (suite : TSuite) : Option TMethod :=
  match suite.test with
  | none => none
  | some ts =>
      ((ts.flatMap (fun t => t.cls.getD [])).flatMap
          (fun c => c.testMethod.getD [])).find?
        (fun m =>
          match m.dollar with
          | some b => getAttr b "name" == some "beforeSuite"
          | none => false)

/-- parseTestNGReport after XML parsing: reject when the testng-results
root is missing, reject when its suite child is missing or empty, and
reject when the root has no attribute bag at all (the unguarded attribute
access of line 135 throws and the surrounding catch rejects); otherwise
produce the test cases and the summary record whose counts are read from
the root attributes with parseInt defaulting to 0. -/
def parseTestNGReport (jsDate : String → Option Int) (result : Option TRoot) :
    Except String (List TestNGTestCase × TestNGResults) :=
  match result with
  | none => .error "Invalid TestNG report format: missing testng-results"
  | some root =>
      match root.suite.head? with
      | none => .error "Invalid TestNG report format: missing suite"
      | some suite =>
          match root.dollar with
          | none => .error "Failed to parse TestNG report: Cannot read properties of undefined"
          | some rb =>
              let startedAt : Option String :=
                match findBeforeSuite suite with
                | some m => getAttr (m.dollar.getD []) "started-at"
                | none => suite.dollar.bind (fun b => getAttr b "started-at")
              let finishedAt : Option String :=
                suite.dollar.bind (fun b => getAttr b "finished-at")
              let results : TestNGResults :=
                { total := jsParseIntD0 (getAttr rb "total"),
                  passed := jsParseIntD0 (getAttr rb "passed"),
                  failed := jsParseIntD0 (getAttr rb "failed"),
                  skipped := jsParseIntD0 (getAttr rb "skipped"),
                  ignored := jsParseIntD0 (getAttr rb "ignored"),
                  startTime := parseDate jsDate startedAt,
                  endTime := parseDate jsDate finishedAt,
                  suiteName := jsOrD (suite.dollar.bind (fun b => getAttr b "name")) "Unknown Suite" }
              .ok (mkTestCases jsDate suite, results)

/-- A CTRF test of the TestNG pipeline (durations there are parseInt
results, hence integers). -/
structure CtrfTest where
  name : String
  status : CtrfTestState
  duration : Int
  message : Option String
  trace : Option String
deriving DecidableEq, Repr

/-- The status switch of the TestNG convertToCTRFTest. -/
def statusOf (s : String) : CtrfTestState :=
  if s = "pass" then .passed
  else if s = "fail" then .failed
  else if s = "skip" then .skipped
  else .other

/-- convertToCTRFTest of the TestNG converter: map the raw status through
the switch and attach message and trace only for failed status and truthy
source text. -/
def convertToCTRFTest (tc : TestNGTestCase) : CtrfTest :=
  let status := statusOf tc.status
  { name := tc.name,
    status := status,
    duration := tc.duration,
    message := if status = .failed ∧ jsTruthyS tc.message = true then tc.message else none,
    trace := if status = .failed ∧ jsTruthyS tc.trace = true then tc.trace else none }

/-- The summary object of the TestNG report. -/
structure Summary where
  tests : Int
  passed : Int
  failed : Int
  pending : Int
  skipped : Int
  other : Int
  start : Int
  stop : Int
deriving DecidableEq, Repr

/-- The results object of the TestNG CTRF report. -/
structure ResultsObj where
  tool : Tool
  summary : Summary
  tests : List CtrfTest
  environment : JsObj
deriving DecidableEq, Repr

/-- The TestNG CTRF report root. -/
structure CtrfReport where
  results : ResultsObj
deriving DecidableEq, Repr

/-- createCTRFReport of the TestNG converter: map the test cases, copy the
framework-reported counts from the results record verbatim with pending 0
and other taken from ignored, and spread the environment properties. -/
def createCTRFReport (testCases : List TestNGTestCase) (results : TestNGResults)
    (toolName : Option String) (envProps : JsObj) : CtrfReport :=
  { results :=
      { tool := ⟨jsOrD toolName "TestNG"⟩,
        summary :=
          { tests := results.total,
            passed := results.passed,
            failed := results.failed,
            pending := 0,
            skipped := results.skipped,
            other := results.ignored,
            start := results.startTime,
            stop := results.endTime },
        tests := testCases.map convertToCTRFTest,
        environment := envProps } }

/-- convertTestngToCTRF: parse, build the environment object from the
KEY=value strings, and create the report.  The file write happens after the
promise resolves, so an error value means no report is ever written. -/
def convertTestngToCTRF (jsDate : String → Option Int) (parsedXml : Option TRoot)
    (toolName : Option String) (envProps : Option (List String)) :
    Except String CtrfReport :=
  (parseTestNGReport jsDate parsedXml).map fun pr =>
    createCTRFReport pr.1 pr.2 toolName
      (match envProps with
       | some l => buildEnv l
       | none => [])

end Testng

namespace Junit

open JsSem

/-- The attribute bag of a testcase element as destructured by the JUnit
parser (classname, name, time; each may be absent). -/
structure JAttrs where
  classname : Option String
  name : Option String
  time : Option String
deriving DecidableEq, Repr

/-- A failure, error or skipped child element as xml2js represents it: an
element with pure text content is the plain string, an element carrying
attributes or children is an object whose optional underscore field holds
its text. -/
inductive XmlChild where
  | text (s : String)
  | node (txt : Option String)
deriving DecidableEq, Repr

/-- A testcase element: its optional attribute bag and its failure, error
and skipped child lists (xml2js produces each key exactly when the list is
nonempty, so the empty list models an absent key). -/
structure JTC where
  dollar : Option JAttrs
  failure : List XmlChild
  error : List XmlChild
  skipped : List XmlChild
deriving DecidableEq, Repr

/-- The attribute bag of a top-level testsuite element (only its name is
read). -/
structure JSAttrs where
  name : Option String
deriving DecidableEq, Repr

mutual
/-- A testsuite element: optional attribute bag, testcase children and
recursively nested testsuite children. -/
inductive JSuite where
  | mk (dollar : Option JSAttrs) (testcase : List JTC) (testsuite : JSuiteList)

/-- A list of nested testsuite elements (a separate mutual type so that the
recursive walk is structural). -/
inductive JSuiteList where
  | nil
  | cons (head : JSuite) (tail : JSuiteList)
end

/-- Attribute bag of a suite element. -/
def JSuite.dollar : JSuite → Option JSAttrs
  | .mk d _ _ => d

/-- The testsuites root object: its testsuite child array, none when the
key is absent (in which case the top-level forEach throws). -/
structure JRoot where
  testsuite : Option (List JSuite)

/-- The intermediate JUnitTestCase record of the source. -/
structure JUnitTestCase where
  suite : Option String
  classname : Option String
  name : Option String
  time : Option String
  failure : Option String
  error : Option String
  skipped : Bool
deriving DecidableEq, Repr

/-- Lines 26, 27 and 34, 35 of the JUnit parser: take index 0 of the child
list; a falsy value (absent, or a plain empty string) yields undefined, a
nonempty plain string yields itself, and an object yields its optional
underscore text (which may itself be absent). -/
def extractChildText (l : List XmlChild) : Option String :=
  match l.head? with
  | none => none
  | some (.text s) => if s = "" then none else some s
  | some (.node t) => t

/-- The record pushed for one testcase element: the originating top-level
suite name, the destructured attributes, the extracted failure and error
text, and the skipped flag which records mere presence of a skipped key. -/
def extractTC (suiteName : Option String) (tc : JTC) (bag : JAttrs) : JUnitTestCase :=
  { suite := suiteName,
    classname := bag.classname,
    name := bag.name,
    time := bag.time,
    failure := extractChildText tc.failure,
    error := extractChildText tc.error,
    skipped := !tc.skipped.isEmpty }

mutual
/-- The recursive parseTestSuite walk: push one record per testcase child,
then recurse into nested testsuite children keeping the same top-level
suite name. -/
def suiteCases (suiteName : Option String) : JSuite → List JUnitTestCase
  | .mk _ tcs subs =>
      tcs.map (fun tc => extractTC suiteName tc (tc.dollar.getD ⟨none, none, none⟩)) ++
        suitesCases suiteName subs

/-- The walk over a list of nested suites, in order. -/
def suitesCases (suiteName : Option String) : JSuiteList → List JUnitTestCase
  | .nil => []
  | .cons s rest => suiteCases suiteName s ++ suitesCases suiteName rest
end

mutual
/-- Whether every testcase element in a suite subtree carries an attribute
bag (the destructuring of a missing bag throws, rejecting the whole
parse). -/
def suiteWF : JSuite → Bool
  | .mk _ tcs subs => tcs.all (fun tc => tc.dollar.isSome) && suitesWF subs

/-- The well-formedness check over a list of nested suites. -/
def suitesWF : JSuiteList → Bool
  | .nil => true
  | .cons s rest => suiteWF s && suitesWF rest
end

mutual
/-- Number of testcase leaf elements in a suite subtree, over all nesting
levels. -/
def suiteLeaves : JSuite → Nat
  | .mk _ tcs subs => tcs.length + suitesLeaves subs

/-- Leaf count over a list of nested suites. -/
def suitesLeaves : JSuiteList → Nat
  | .nil => 0
  | .cons s rest => suiteLeaves s + suitesLeaves rest
end

mutual
/-- The testcase leaf elements of a suite subtree in walk order (the
testcase children of a suite come before those of its nested suites). -/
def suiteLeafList : JSuite → List JTC
  | .mk _ tcs subs => tcs ++ suitesLeafList subs

/-- The leaf elements over a list of nested suites, in order. -/
def suitesLeafList : JSuiteList → List JTC
  | .nil => []
  | .cons s rest => suiteLeafList s ++ suitesLeafList rest
end

/-- Total number of testcase leaf elements over all top-level suites of a
report. -/
def rootLeaves (root : JRoot) : Nat :=
  match root.testsuite with
  | none => 0
  | some l => (l.map suiteLeaves).sum

/-- Where the JUnit walk would throw: the testsuite key must exist, every
top-level suite must carry an attribute bag (its name is read without a
guard) and every testcase leaf must carry one (it is destructured without a
guard). -/
def rootWF (root : JRoot) : Bool :=
  match root.testsuite with
  | none => false
  | some l => l.all (fun s => s.dollar.isSome && suiteWF s)

/-- parseJUnitReport after XML parsing: when any unguarded access would
throw, the returned promise rejects and all partially collected records are
discarded; otherwise the flat record list tagged per top-level suite name
is produced. -/
def parseJUnitReport (root : JRoot) : Except String (List JUnitTestCase) :=
  match root.testsuite with
  | none => .error "TypeError"
  | some l =>
      if l.all (fun s => s.dollar.isSome && suiteWF s) then
        .ok (l.flatMap (fun s => suiteCases (s.dollar.getD ⟨none⟩).name s))
      else .error "TypeError"

/-- A CTRF test of the JUnit pipeline; the duration is a JavaScript number
(Math.round of NaN is NaN, so it is not always an integer). -/
structure CtrfTest where
  name : String
  status : CtrfTestState
  duration : JsNum
  message : Option String
  trace : Option String
deriving DecidableEq, Repr

/-- Line 68 of the JUnit converter: Math.round(parseFloat(time) * 1000) in
JavaScript number semantics; an undefined time stringifies to the word
undefined and parses as NaN. -/
def durationOf (time : Option String) : JsNum :=
  jsMathRound (jsMul (jsParseFloat (jsStrOfOpt time)) f1000)

/-- JavaScript logical-or of two possibly-undefined strings: the first when
truthy, otherwise the second. -/
def jsOr (a b : Option String) : Option String :=
  if jsTruthyS a then a else b

/-- convertToCTRFTest of the JUnit converter: the status chain checks the
truthiness of the extracted failure text, then the error text, then the
skipped flag; the name is a template over the suite and test names; message
and trace are both the expression failure-or-error when truthy, undefined
otherwise. -/
def convertToCTRFTest (tc : JUnitTestCase) : CtrfTest :=
  let status : CtrfTestState :=
    if jsTruthyS tc.failure then .failed
    else if jsTruthyS tc.error then .failed
    else if tc.skipped then .skipped
    else .passed
  { name := jsStrOfOpt tc.suite ++ ": " ++ jsStrOfOpt tc.name,
    status := status,
    duration := durationOf tc.time,
    message := if jsTruthyS (jsOr tc.failure tc.error) = true then jsOr tc.failure tc.error else none,
    trace := if jsTruthyS (jsOr tc.failure tc.error) = true then jsOr tc.failure tc.error else none }

/-- The summary object of the JUnit report (counts are tallies of the
mapped list; start and stop are the literal 0). -/
structure Summary where
  tests : Nat
  passed : Nat
  failed : Nat
  skipped : Nat
  pending : Nat
  other : Nat
  start : Int
  stop : Int
deriving DecidableEq, Repr

/-- The results object of the JUnit CTRF report; the environment key is
emitted only when the environment object has at least one key. -/
structure ResultsObj where
  tool : Tool
  summary : Summary
  tests : List CtrfTest
  environment : Option JsObj
deriving DecidableEq, Repr

/-- The JUnit CTRF report root. -/
structure CtrfReport where
  results : ResultsObj
deriving DecidableEq, Repr

/-- createCTRFReport of the JUnit converter: map the test cases, tally each
status over the mapped list, zero timestamps, and attach the environment
object only when it has keys. -/
def createCTRFReport (testCases : List JUnitTestCase) (toolName : Option String)
    (envProps : JsObj) : CtrfReport :=
  let ctrfTests := testCases.map convertToCTRFTest
  { results :=
      { tool := ⟨jsOrD toolName "junit-to-ctrf"⟩,
        summary :=
          { tests := ctrfTests.length,
            passed := (ctrfTests.filter (fun t => t.status == .passed)).length,
            failed := (ctrfTests.filter (fun t => t.status == .failed)).length,
            skipped := (ctrfTests.filter (fun t => t.status == .skipped)).length,
            pending := (ctrfTests.filter (fun t => t.status == .pending)).length,
            other := (ctrfTests.filter (fun t => t.status == .other)).length,
            start := 0,
            stop := 0 },
        tests := ctrfTests,
        environment := if envProps.isEmpty then none else some envProps } }

/-- convertJUnitToCTRF: parse, build the environment object, create the
report; a rejected parse means no report is written. -/
def convertJUnitToCTRF (parsedXml : JRoot) (toolName : Option String)
    (envProps : Option (List String)) : Except String CtrfReport :=
  (parseJUnitReport parsedXml).map fun tcs =>
    createCTRFReport tcs toolName
      (match envProps with
       | some l => buildEnv l
       | none => [])

end Junit

section Claims

open JsSem

/-- C9 (confirmed): when the parsed XML lacks a testng-results root node the
TestNG conversion rejects with the message naming the missing root element
(the exact string of line 83 of the source), for every date runtime, tool
name and environment-property list; the rejected promise means the write
step is never reached, embedded here as the conversion producing an error
value instead of a report. -/
theorem claim_C9 :
    ∀ (jsDate : String → Option Int) (toolName : Option String)
      (envProps : Option (List String)),
      Testng.convertTestngToCTRF jsDate none toolName envProps =
        .error "Invalid TestNG report format: missing testng-results" :=
  fun _ _ _ => rfl

/-- C8 (confirmed): the TestNG status switch maps pass to passed, fail to
failed, skip to skipped, and every other raw status string to other. -/
theorem claim_C8 :
    Testng.statusOf "pass" = CtrfTestState.passed ∧
    Testng.statusOf "fail" = CtrfTestState.failed ∧
    Testng.statusOf "skip" = CtrfTestState.skipped ∧
    ∀ s : String, s ≠ "pass" → s ≠ "fail" → s ≠ "skip" →
      Testng.statusOf s = CtrfTestState.other := by
  refine ⟨by decide, by decide, by decide, ?_⟩
  intro s h1 h2 h3
  simp [Testng.statusOf, h1, h2, h3]

/-- Witness for C8: the default branch of the switch at a concrete raw
status string. -/
theorem claim_C8_witness : Testng.statusOf "banana" = CtrfTestState.other :=
  claim_C8.2.2.2 "banana" (by decide) (by decide) (by decide)

/-- C1 (counterexample): a JUnit testcase with a failure child element whose
text content is empty is mapped to status passed, although the claim as
stated requires presence of a failure element to yield status failed. -/
theorem claim_C1_counterexample :
    (Junit.convertToCTRFTest
        (Junit.extractTC none
          ⟨some ⟨none, none, none⟩, [Junit.XmlChild.text ""], [], []⟩
          ⟨none, none, none⟩)).status = CtrfTestState.passed ∧
    ([Junit.XmlChild.text ""] : List Junit.XmlChild) ≠ [] := by decide

/-- C1 (amended): the JUnit status derivation is structural over the
extracted element text rather than element presence alone: a failure or
error child element whose extracted text is non-empty yields failed (the
failure and error checks precede the skip check); otherwise presence of a
skipped child element, regardless of its content, yields skipped; otherwise
the status is passed.  A failure or error element that is present but
carries no non-empty text is ignored by the chain. -/
theorem claim_C1_amended :
    ∀ (sn : Option String) (tc : Junit.JTC) (bag : Junit.JAttrs),
      (Junit.convertToCTRFTest (Junit.extractTC sn tc bag)).status =
        (if jsTruthyS (Junit.extractChildText tc.failure) = true then CtrfTestState.failed
         else if jsTruthyS (Junit.extractChildText tc.error) = true then CtrfTestState.failed
         else if tc.skipped = [] then CtrfTestState.passed
         else CtrfTestState.skipped) := by
  intro sn tc bag
  obtain ⟨d, f, e, sk⟩ := tc
  simp only [Junit.convertToCTRFTest, Junit.extractTC]
  by_cases hf : jsTruthyS (Junit.extractChildText f) = true
  · simp [hf]
  · by_cases he : jsTruthyS (Junit.extractChildText e) = true
    · simp [hf, he]
    · cases sk <;> simp [hf, he]

/-- C10 (counterexample): a JUnit testcase with a failure child element that
carries attributes but no text (xml2js represents it as an object without
an underscore field) produces an output test with neither message nor
trace, although the claim as stated requires both fields whenever a failure
element is present. -/
theorem claim_C10_counterexample :
    (Junit.convertToCTRFTest
        (Junit.extractTC none
          ⟨some ⟨none, none, none⟩, [Junit.XmlChild.node none], [], []⟩
          ⟨none, none, none⟩)).message = none ∧
    (Junit.convertToCTRFTest
        (Junit.extractTC none
          ⟨some ⟨none, none, none⟩, [Junit.XmlChild.node none], [], []⟩
          ⟨none, none, none⟩)).trace = none ∧
    ([Junit.XmlChild.node none] : List Junit.XmlChild) ≠ [] := by decide

/-- C10 (amended): in the JUnit pipeline the message and the trace of an
output test are always equal (both are the expression failure-or-error, so
the trace is not a separate stack trace); they are present exactly when the
extracted failure text or the extracted error text is truthy, in which case
both carry the first truthy of the two; in particular a testcase with
neither a failure nor an error element carries neither field. -/
theorem claim_C10_amended :
    ∀ (sn : Option String) (tc : Junit.JTC) (bag : Junit.JAttrs),
      (Junit.convertToCTRFTest (Junit.extractTC sn tc bag)).message =
        (Junit.convertToCTRFTest (Junit.extractTC sn tc bag)).trace ∧
      (Junit.convertToCTRFTest (Junit.extractTC sn tc bag)).message =
        (if jsTruthyS (Junit.jsOr (Junit.extractChildText tc.failure)
              (Junit.extractChildText tc.error)) = true then
          Junit.jsOr (Junit.extractChildText tc.failure) (Junit.extractChildText tc.error)
         else none) ∧
      (tc.failure = [] → tc.error = [] →
        (Junit.convertToCTRFTest (Junit.extractTC sn tc bag)).message = none ∧
        (Junit.convertToCTRFTest (Junit.extractTC sn tc bag)).trace = none) := by
  intro sn tc bag
  refine ⟨by simp [Junit.convertToCTRFTest, Junit.extractTC], ?_, ?_⟩
  · simp [Junit.convertToCTRFTest, Junit.extractTC]
  · intro hf he
    simp [Junit.convertToCTRFTest, Junit.extractTC, hf, he, Junit.extractChildText,
      Junit.jsOr, jsTruthyS]

/-- Filtering then mapping distributes over a flat map. -/
theorem filterMapFlat {α β γ : Type} (l : List α) (f : α → List β) (q : β → Bool)
    (g : β → γ) :
    ((l.flatMap f).filter q).map g = l.flatMap (fun a => ((f a).filter q).map g) := by
  induction l with
  | nil => rfl
  | cons a l ih => simp [List.flatMap_cons, List.filter_append, List.map_append, ih]

/-- Flat maps agree when the functions agree on the list members. -/
theorem flatMapCongrMem {α β : Type} (l : List α) (f g : α → List β)
    (h : ∀ a ∈ l, f a = g a) : l.flatMap f = l.flatMap g := by
  induction l with
  | nil => rfl
  | cons a l ih =>
      simp only [List.flatMap_cons, h a (List.mem_cons_self a l)]
      rw [ih (fun x hx => h x (List.mem_cons_of_mem _ hx))]

/-- The test-method loop body over one method list: with the attribute bags
present, the kept methods are exactly the non-configuration ones and each
is mapped by the record constructor. -/
theorem tngFilterMapAux (jsDate : String → Option Int) (t : Testng.TTest) :
    ∀ ms : List Testng.TMethod,
      (∀ m ∈ ms, m.dollar.isSome = true ∧ t.dollar.isSome = true) →
      ms.filterMap (Testng.mkMethodCase jsDate t) =
        (ms.filter (fun m => !Testng.isConfigTrue m)).map (Testng.mkCaseOf jsDate t)
  | [], _ => rfl
  | m :: ms, H => by
      obtain ⟨hm, ht⟩ := H m (List.mem_cons_self m ms)
      obtain ⟨mb, hmb⟩ := Option.isSome_iff_exists.1 hm
      obtain ⟨tb, htb⟩ := Option.isSome_iff_exists.1 ht
      have IH := tngFilterMapAux jsDate t ms (fun x hx => H x (List.mem_cons_of_mem _ hx))
      cases hcfg : (getAttr mb "is_config" == some "true") with
      | true =>
          have hcase : Testng.mkMethodCase jsDate t m = none := by
            simp [Testng.mkMethodCase, hmb, hcfg]
          have hkeep : (!Testng.isConfigTrue m) = false := by
            simp [Testng.isConfigTrue, hmb, hcfg]
          simp [List.filterMap_cons, List.filter_cons, hcase, hkeep, IH]
      | false =>
          have hcase : Testng.mkMethodCase jsDate t m = some (Testng.mkCaseOf jsDate t m) := by
            simp [Testng.mkMethodCase, hmb, htb, hcfg]
          have hkeep : (!Testng.isConfigTrue m) = true := by
            simp [Testng.isConfigTrue, hmb, hcfg]
          simp [List.filterMap_cons, List.filter_cons, hcase, hkeep, IH]

/-- C3 (confirmed): for a valid TestNG suite, where validity means every
walked test-method and its enclosing test element carry an attribute bag
(real TestNG output always attributes both), the extracted test case list
is exactly the walk-ordered list of non-configuration methods, each mapped
once by the record constructor: every method whose is_config attribute is
the literal true is absent, and every other method contributes exactly one
entry. -/
theorem claim_C3 :
    ∀ (jsDate : String → Option Int) (suite : Testng.TSuite),
      (∀ p ∈ Testng.methodPairs suite, p.1.dollar.isSome = true) →
      (∀ p ∈ Testng.methodPairs suite, p.2.dollar.isSome = true) →
      Testng.mkTestCases jsDate suite =
        ((Testng.methodPairs suite).filter (fun p => !Testng.isConfigTrue p.2)).map
          (fun p => Testng.mkCaseOf jsDate p.1 p.2) := by
  intro jsDate suite h1 h2
  obtain ⟨sd, st⟩ := suite
  cases st with
  | none => rfl
  | some ts =>
      have hpairs : Testng.methodPairs ⟨sd, some ts⟩ =
          ts.flatMap (fun t =>
            match t.cls with
            | none => []
            | some cs =>
                cs.flatMap fun c =>
                  match c.testMethod with
                  | none => []
                  | some ms => ms.map (fun m => (t, m))) := rfl
      rw [hpairs] at h1 h2 ⊢
      show ts.flatMap _ = _
      rw [filterMapFlat]
      apply flatMapCongrMem
      intro t htmem
      cases hcls : t.cls with
      | none => simp [hcls]
      | some cs =>
          simp only [hcls]
          rw [filterMapFlat]
          apply flatMapCongrMem
          intro c hcmem
          cases htm : c.testMethod with
          | none => simp [htm]
          | some ms =>
              simp only [htm]
              rw [List.filter_map, List.map_map]
              have := tngFilterMapAux jsDate t ms ?_
              · rw [this]
                rfl
              · intro m hmmem
                have hp : (t, m) ∈ ts.flatMap (fun t =>
                    match t.cls with
                    | none => []
                    | some cs =>
                        cs.flatMap fun c =>
                          match c.testMethod with
                          | none => []
                          | some ms => ms.map (fun m => (t, m))) := by
                  refine List.mem_flatMap.2 ⟨t, htmem, ?_⟩
                  simp only [hcls]
                  refine List.mem_flatMap.2 ⟨c, hcmem, ?_⟩
                  simp only [htm]
                  exact List.mem_map.2 ⟨m, hmmem, rfl⟩
                exact ⟨h2 (t, m) hp, h1 (t, m) hp⟩

/-- C2 (confirmed): the output summary of the TestNG conversion copies the
root attributes verbatim through parseInt with default 0 on a missing or
unparsable attribute (never fatally, part three: any root with a suite and
an attribute bag converts successfully whatever the bag holds), pending is
the literal 0 and other is the ignored count; and the summary does not
depend on the extracted test case list at all (part two). -/
theorem claim_C2 :
    (∀ (jsDate : String → Option Int) (root : Testng.TRoot) (rb : AttrBag)
        (toolName : Option String) (env : Option (List String))
        (report : Testng.CtrfReport),
        root.dollar = some rb →
        Testng.convertTestngToCTRF jsDate (some root) toolName env = .ok report →
        report.results.summary.tests = jsParseIntD0 (getAttr rb "total") ∧
        report.results.summary.passed = jsParseIntD0 (getAttr rb "passed") ∧
        report.results.summary.failed = jsParseIntD0 (getAttr rb "failed") ∧
        report.results.summary.skipped = jsParseIntD0 (getAttr rb "skipped") ∧
        report.results.summary.other = jsParseIntD0 (getAttr rb "ignored") ∧
        report.results.summary.pending = 0) ∧
    (∀ (tcs1 tcs2 : List Testng.TestNGTestCase) (results : Testng.TestNGResults)
        (toolName : Option String) (env : JsObj),
        (Testng.createCTRFReport tcs1 results toolName env).results.summary =
          (Testng.createCTRFReport tcs2 results toolName env).results.summary) ∧
    (∀ (jsDate : String → Option Int) (root : Testng.TRoot) (rb : AttrBag)
        (s : Testng.TSuite) (toolName : Option String) (env : Option (List String)),
        root.suite.head? = some s →
        root.dollar = some rb →
        ∃ report, Testng.convertTestngToCTRF jsDate (some root) toolName env = .ok report) := by
  refine ⟨?_, ?_, ?_⟩
  · intro jsDate root rb toolName env report hrb hok
    simp only [Testng.convertTestngToCTRF, Testng.parseTestNGReport] at hok
    cases hsuite : root.suite.head? with
    | none =>
        rw [hsuite] at hok
        simp [Except.map] at hok
    | some suite =>
        rw [hsuite, hrb] at hok
        simp only [Except.map, Except.ok.injEq] at hok
        subst hok
        simp [Testng.createCTRFReport]
  · intro tcs1 tcs2 results toolName env
    rfl
  · intro jsDate root rb s toolName env hs hrb
    cases he : Testng.convertTestngToCTRF jsDate (some root) toolName env with
    | ok r => exact ⟨r, rfl⟩
    | error msg =>
        exfalso
        simp only [Testng.convertTestngToCTRF, Testng.parseTestNGReport] at he
        rw [hs, hrb] at he
        simp [Except.map] at he

/-- Witness for C2: a concrete root whose total attribute is garbage and
whose ignored attribute is 2, converted with an empty suite; the summary
copies the defaulted counts. -/
theorem claim_C2_witness :
    (Testng.createCTRFReport [] ⟨0, 0, 0, 0, 2, 0, 0, "Unknown Suite"⟩ none
          []).results.summary.tests = jsParseIntD0 (getAttr [("total", "x"), ("ignored", "2")] "total") ∧
    (Testng.createCTRFReport [] ⟨0, 0, 0, 0, 2, 0, 0, "Unknown Suite"⟩ none
          []).results.summary.passed = jsParseIntD0 (getAttr [("total", "x"), ("ignored", "2")] "passed") ∧
    (Testng.createCTRFReport [] ⟨0, 0, 0, 0, 2, 0, 0, "Unknown Suite"⟩ none
          []).results.summary.failed = jsParseIntD0 (getAttr [("total", "x"), ("ignored", "2")] "failed") ∧
    (Testng.createCTRFReport [] ⟨0, 0, 0, 0, 2, 0, 0, "Unknown Suite"⟩ none
          []).results.summary.skipped = jsParseIntD0 (getAttr [("total", "x"), ("ignored", "2")] "skipped") ∧
    (Testng.createCTRFReport [] ⟨0, 0, 0, 0, 2, 0, 0, "Unknown Suite"⟩ none
          []).results.summary.other = jsParseIntD0 (getAttr [("total", "x"), ("ignored", "2")] "ignored") ∧
    (Testng.createCTRFReport [] ⟨0, 0, 0, 0, 2, 0, 0, "Unknown Suite"⟩ none
          []).results.summary.pending = 0 :=
  claim_C2.1 dateStub ⟨some [("total", "x"), ("ignored", "2")], [⟨none, none⟩]⟩
    [("total", "x"), ("ignored", "2")] none none
    (Testng.createCTRFReport [] ⟨0, 0, 0, 0, 2, 0, 0, "Unknown Suite"⟩ none [])
    rfl (by decide)

/-- Witness for C3: a concrete suite with one configuration method and one
regular method; the walk keeps exactly the regular one. -/
theorem claim_C3_witness :
    Testng.mkTestCases dateStub
        ⟨none, some [⟨some [("name", "T")], some [⟨some
          [⟨some [("name", "setup"), ("is_config", "true")], []⟩,
           ⟨some [("name", "m"), ("status", "PASS")], []⟩]⟩]⟩]⟩ =
      ((Testng.methodPairs
        ⟨none, some [⟨some [("name", "T")], some [⟨some
          [⟨some [("name", "setup"), ("is_config", "true")], []⟩,
           ⟨some [("name", "m"), ("status", "PASS")], []⟩]⟩]⟩]⟩).filter
          (fun p => !Testng.isConfigTrue p.2)).map
        (fun p => Testng.mkCaseOf dateStub p.1 p.2) :=
  claim_C3 dateStub
    ⟨none, some [⟨some [("name", "T")], some [⟨some
      [⟨some [("name", "setup"), ("is_config", "true")], []⟩,
       ⟨some [("name", "m"), ("status", "PASS")], []⟩]⟩]⟩]⟩
    (by decide) (by decide)

/-- The recursive JUnit walk of one suite produces exactly one record per
testcase leaf, in leaf order. -/
theorem suiteCasesEq (n : Option String) (s : Junit.JSuite) :
    Junit.suiteCases n s = (Junit.suiteLeafList s).map
      (fun tc => Junit.extractTC n tc (tc.dollar.getD ⟨none, none, none⟩)) :=
  @Junit.JSuite.rec
    (fun s => Junit.suiteCases n s = (Junit.suiteLeafList s).map
      (fun tc => Junit.extractTC n tc (tc.dollar.getD ⟨none, none, none⟩)))
    (fun l => Junit.suitesCases n l = (Junit.suitesLeafList l).map
      (fun tc => Junit.extractTC n tc (tc.dollar.getD ⟨none, none, none⟩)))
    (fun _ tcs subs ih => by
      simp [Junit.suiteCases, Junit.suiteLeafList, ih])
    (by simp [Junit.suitesCases, Junit.suitesLeafList])
    (fun h t ih1 ih2 => by
      simp [Junit.suitesCases, Junit.suitesLeafList, ih1, ih2])
    s

/-- The leaf count of a suite subtree is the length of its leaf list. -/
theorem suiteLeavesEq (s : Junit.JSuite) :
    Junit.suiteLeaves s = (Junit.suiteLeafList s).length :=
  @Junit.JSuite.rec
    (fun s => Junit.suiteLeaves s = (Junit.suiteLeafList s).length)
    (fun l => Junit.suitesLeaves l = (Junit.suitesLeafList l).length)
    (fun _ tcs subs ih => by
      simp [Junit.suiteLeaves, Junit.suiteLeafList, ih])
    (by simp [Junit.suitesLeaves, Junit.suitesLeafList])
    (fun h t ih1 ih2 => by
      simp [Junit.suitesLeaves, Junit.suitesLeafList, ih1, ih2])
    s

/-- C4 (confirmed): whenever the JUnit parse succeeds (it rejects instead
when an unguarded attribute access would throw), the record list has
exactly one entry per testcase leaf element over all nesting levels of all
top-level suites, in walk order, and so has the test list of the final
report: its length is the total leaf count. -/
theorem claim_C4 :
    ∀ (root : Junit.JRoot) (tcs : List Junit.JUnitTestCase),
      Junit.parseJUnitReport root = .ok tcs →
      tcs.length = Junit.rootLeaves root ∧
      tcs = (match root.testsuite with
             | none => []
             | some l => l.flatMap (fun s => (Junit.suiteLeafList s).map
                 (fun tc => Junit.extractTC (s.dollar.getD ⟨none⟩).name tc
                   (tc.dollar.getD ⟨none, none, none⟩)))) ∧
      (∀ (toolName : Option String) (envProps : Option (List String))
          (r : Junit.CtrfReport),
          Junit.convertJUnitToCTRF root toolName envProps = .ok r →
          r.results.tests.length = Junit.rootLeaves root) := by
  intro root tcs hok
  have hmain : tcs.length = Junit.rootLeaves root ∧
      tcs = (match root.testsuite with
             | none => []
             | some l => l.flatMap (fun s => (Junit.suiteLeafList s).map
                 (fun tc => Junit.extractTC (s.dollar.getD ⟨none⟩).name tc
                   (tc.dollar.getD ⟨none, none, none⟩)))) := by
    cases hts : root.testsuite with
    | none => simp [Junit.parseJUnitReport, hts] at hok
    | some l =>
        simp only [Junit.parseJUnitReport, hts] at hok
        by_cases hwf : l.all (fun s => s.dollar.isSome && Junit.suiteWF s) = true
        · rw [if_pos hwf] at hok
          obtain rfl := Except.ok.inj hok
          refine ⟨?_, ?_⟩
          · simp only [Junit.rootLeaves, hts, List.length_flatMap]
            congr 1
            apply List.map_congr_left
            intro s _
            simp only [Function.comp_apply]
            rw [suiteCasesEq, List.length_map, suiteLeavesEq]
          · simp only [hts]
            exact flatMapCongrMem l _ _ (fun s _ => suiteCasesEq _ s)
        · rw [if_neg hwf] at hok
          simp at hok
  refine ⟨hmain.1, hmain.2, ?_⟩
  intro toolName envProps r hr
  simp only [Junit.convertJUnitToCTRF, hok, Except.map, Except.ok.injEq] at hr
  subst hr
  simp [Junit.createCTRFReport, hmain.1]

/-- A concrete JUnit report used to instantiate C4: one top-level suite
named A with one direct testcase and one nested suite holding another
testcase. -/
def sampleJRoot : Junit.JRoot :=
  ⟨some [Junit.JSuite.mk (some ⟨some "A"⟩)
    [⟨some ⟨none, some "t1", some "2"⟩, [], [], []⟩]
    (Junit.JSuiteList.cons (Junit.JSuite.mk none
      [⟨some ⟨none, some "t2", none⟩, [Junit.XmlChild.text "boom"], [], []⟩]
      Junit.JSuiteList.nil) Junit.JSuiteList.nil)]⟩

/-- The record list the JUnit parse extracts from the sample report. -/
def sampleJTcs : List Junit.JUnitTestCase :=
  [⟨some "A", none, some "t1", some "2", none, none, false⟩,
   ⟨some "A", none, some "t2", none, some "boom", none, false⟩]

/-- Witness for C4: the sample report parses to two records, one per leaf
across the two nesting levels. -/
theorem claim_C4_witness :
    sampleJTcs.length = Junit.rootLeaves sampleJRoot ∧
    sampleJTcs = (match sampleJRoot.testsuite with
           | none => []
           | some l => l.flatMap (fun s => (Junit.suiteLeafList s).map
               (fun tc => Junit.extractTC (s.dollar.getD ⟨none⟩).name tc
                 (tc.dollar.getD ⟨none, none, none⟩)))) ∧
    (∀ (toolName : Option String) (envProps : Option (List String))
        (r : Junit.CtrfReport),
        Junit.convertJUnitToCTRF sampleJRoot toolName envProps = .ok r →
        r.results.tests.length = Junit.rootLeaves sampleJRoot) :=
  claim_C4 sampleJRoot sampleJTcs (by decide)

/-- Property assignment followed by a read: the assigned key reads the new
value, every other key is untouched. -/
theorem objGetSetEntry (o : JsObj) (k : String) (v : Option String) (q : String) :
    objGet (setEntry o k v) q = if k = q then some v else objGet o q := by
  induction o with
  | nil =>
      by_cases h : k = q <;> simp [setEntry, objGet, List.find?_cons, h]
  | cons e o ih =>
      obtain ⟨k0, v0⟩ := e
      by_cases h0 : k0 = k
      · subst h0
        by_cases h : k0 = q <;> simp [setEntry, objGet, List.find?_cons, h]
      · by_cases h : k0 = q
        · subst h
          simp [setEntry, objGet, List.find?_cons, h0, Ne.symm h0]
        · simp only [setEntry, if_neg h0, objGet, List.find?_cons]
          have : (k0 == q) = false := by simp [h]
          simp only [this]
          exact ih

/-- Reading a key out of an object folded up from an entry list: the value
of the last entry with that key, or the original object's value when no
entry has it. -/
theorem fromEntriesLast :
    ∀ (l : List (String × Option String)) (o : JsObj) (k : String),
      objGet (l.foldl (fun o e => setEntry o e.1 e.2) o) k =
        (match (l.filter (fun e => e.1 == k)).getLast? with
         | some e => some e.2
         | none => objGet o k) := by
  intro l
  induction l with
  | nil => intro o k; rfl
  | cons e l ih =>
      intro o k
      rw [List.foldl_cons, ih]
      by_cases hpe : e.1 = k
      · cases hfl : l.filter (fun x => x.1 == k) with
        | nil => simp [List.filter_cons, hpe, hfl, objGetSetEntry]
        | cons f fs =>
            have hfc : (e :: l).filter (fun x => x.1 == k) = e :: f :: fs := by
              simp [List.filter_cons, hpe, hfl]
            rw [hfc, List.getLast?_cons_cons]
            cases hgl : (f :: fs).getLast? with
            | none => simp at hgl
            | some a => rfl
      · have hfc : (e :: l).filter (fun x => x.1 == k) = l.filter (fun x => x.1 == k) := by
          simp [List.filter_cons, hpe]
        rw [hfc]
        cases hfl : l.filter (fun x => x.1 == k) with
        | nil => simp [objGetSetEntry, hpe]
        | cons f fs => rfl

/-- Object.fromEntries read as last-entry-wins lookup. -/
theorem fromEntriesMap (l : List (String × Option String)) (k : String) :
    objGet (fromEntries l) k =
      ((l.filter (fun e => e.1 == k)).getLast?).map (fun e => e.2) := by
  rw [fromEntries, fromEntriesLast]
  cases (l.filter (fun e => e.1 == k)).getLast? <;> rfl

/-- C5 (amended): the environment mapping is built by splitting each
property string on every equals sign: the key is the segment before the
first equals sign, and the value is the segment strictly between the first
and the second equals sign (everything from the second equals sign on is
dropped, and a string without an equals sign stores an undefined value);
when two strings share a key the last one wins.  Parts two and three tie
the mapping into the two conversion entry points (the JUnit report omits
the environment key when the mapping is empty). -/
theorem claim_C5_amended :
    (∀ (props : List String) (k : String),
        objGet (buildEnv props) k =
          ((props.filter (fun p => (jsSplitCh '=' p).headD "" == k)).getLast?).map
            (fun p => (jsSplitCh '=' p).get? 1)) ∧
    (∀ (jsDate : String → Option Int) (parsedXml : Option Testng.TRoot)
        (toolName : Option String) (props : List String) (r : Testng.CtrfReport),
        Testng.convertTestngToCTRF jsDate parsedXml toolName (some props) = .ok r →
        r.results.environment = buildEnv props) ∧
    (∀ (root : Junit.JRoot) (toolName : Option String) (props : List String)
        (r : Junit.CtrfReport),
        Junit.convertJUnitToCTRF root toolName (some props) = .ok r →
        r.results.environment =
          (if (buildEnv props).isEmpty then none else some (buildEnv props))) := by
  refine ⟨?_, ?_, ?_⟩
  · intro props k
    rw [buildEnv, fromEntriesMap, List.filter_map, List.getLast?_map, Option.map_map]
    rfl
  · intro jsDate parsedXml toolName props r hr
    cases he : Testng.parseTestNGReport jsDate parsedXml with
    | error msg => simp [Testng.convertTestngToCTRF, he, Except.map] at hr
    | ok pr =>
        simp only [Testng.convertTestngToCTRF, he, Except.map, Except.ok.injEq] at hr
        subst hr
        simp [Testng.createCTRFReport]
  · intro root toolName props r hr
    cases he : Junit.parseJUnitReport root with
    | error msg => simp [Junit.convertJUnitToCTRF, he, Except.map] at hr
    | ok tcs =>
        simp only [Junit.convertJUnitToCTRF, he, Except.map, Except.ok.injEq] at hr
        subst hr
        simp [Junit.createCTRFReport]

/-- C5 (counterexample): the property string k=a=b maps key k to the value
a, not to a=b: the split is on every equals sign and only the segment up to
the second equals sign survives, refuting the claim that the value keeps
later equals characters intact.  Evaluated through the full TestNG
conversion on a minimal report. -/
theorem claim_C5_counterexample :
    (Testng.convertTestngToCTRF dateStub (some ⟨some [], [⟨none, none⟩]⟩) none
        (some ["k=a=b"])).map (fun r => objGet r.results.environment "k") =
      .ok (some (some "a")) ∧
    (Testng.convertTestngToCTRF dateStub (some ⟨some [], [⟨none, none⟩]⟩) none
        (some ["k=a=b"])).map (fun r => objGet r.results.environment "k") ≠
      .ok (some (some "a=b")) := by decide

/-- Witness for C5: the TestNG entry point stores the environment object
built from the property list k=a=b. -/
theorem claim_C5_witness :
    (Testng.createCTRFReport [] ⟨0, 0, 0, 0, 0, 0, 0, "Unknown Suite"⟩ none
        [("k", some "a")]).results.environment = buildEnv ["k=a=b"] :=
  claim_C5_amended.2.1 dateStub (some ⟨some [], [⟨none, none⟩]⟩) none ["k=a=b"]
    (Testng.createCTRFReport [] ⟨0, 0, 0, 0, 0, 0, 0, "Unknown Suite"⟩ none
      [("k", some "a")]) (by decide)

/-- Witness for C10: a skipped-only testcase (no failure and no error
element) carries neither message nor trace. -/
theorem claim_C10_witness :
    (Junit.convertToCTRFTest (Junit.extractTC (some "S")
        ⟨some ⟨none, none, none⟩, [], [], [Junit.XmlChild.text "x"]⟩
        ⟨none, none, none⟩)).message = none ∧
    (Junit.convertToCTRFTest (Junit.extractTC (some "S")
        ⟨some ⟨none, none, none⟩, [], [], [Junit.XmlChild.text "x"]⟩
        ⟨none, none, none⟩)).trace = none :=
  (claim_C10_amended (some "S")
    ⟨some ⟨none, none, none⟩, [], [], [Junit.XmlChild.text "x"]⟩
    ⟨none, none, none⟩).2.2 rfl rfl

/-- Math.round of a finite value is the integer d framed by the half-open
interval around the value plus one half: d is at most value + 1/2 and value
+ 1/2 is below d + 1, which says d is the nearest integer with ties toward
positive infinity. -/
theorem jsMathRoundBracket (x : F64) :
    ∃ d : Int, jsMathRound (.fin x) = .fin ⟨d, 0⟩ ∧
      (d : ℚ) ≤ f64Val x + 1 / 2 ∧ f64Val x + 1 / 2 < (d : ℚ) + 1 := by
  by_cases he : 0 ≤ x.e
  · have hval : f64Val x = ((x.m * 2 ^ x.e.toNat : Int) : ℚ) := by
      rw [f64Val, qpow2, if_pos he]
      push_cast
      ring
    refine ⟨x.m * 2 ^ x.e.toNat, ?_, ?_, ?_⟩
    · simp [jsMathRound, he]
    · rw [hval]; linarith
    · rw [hval]; linarith
  · push_neg at he
    set f := (-x.e).toNat with hf
    set a : Int := 2 * x.m + 2 ^ f with ha
    set b : Int := 2 ^ (f + 1) with hb
    have hbpos : (0 : Int) < b := by positivity
    have hbq : (0 : ℚ) < (b : ℚ) := by exact_mod_cast hbpos
    have hval : f64Val x + 1 / 2 = (a : ℚ) / (b : ℚ) := by
      rw [f64Val, qpow2, if_neg (not_le.2 he), ha, hb]
      push_cast
      rw [pow_succ]
      have h2f : (0 : ℚ) < (2 : ℚ) ^ f := by positivity
      field_simp
      ring
    have hdiv : a.fdiv b = a / b := Int.fdiv_eq_ediv a (le_of_lt hbpos)
    have hmod1 : 0 ≤ a % b := Int.emod_nonneg a (ne_of_gt hbpos)
    have hmod2 : a % b < b := Int.emod_lt_of_pos a hbpos
    have hsum : b * (a / b) + a % b = a := Int.ediv_add_emod a b
    refine ⟨a.fdiv b, ?_, ?_, ?_⟩
    · rw [jsMathRound, if_neg (not_le.2 he)]
    · rw [hval, hdiv, le_div_iff₀ hbq]
      have : (a / b) * b ≤ a := by linarith [hsum, hmod1]
      exact_mod_cast this
    · rw [hval, hdiv, div_lt_iff₀ hbq]
      have : a < (a / b + 1) * b := by linarith [hsum, hmod2]
      exact_mod_cast this

/-- C6 (amended): the JUnit duration is Math.round of the double product of
the parsed time with 1000: whenever that product is a finite value p, the
duration is the integer d with d at most the value of p plus one half and
the value of p plus one half below d + 1, that is the nearest integer with
ties broken toward positive infinity (for nonnegative times this agrees
with ties away from zero); the time 1.234 yields duration 1234 and the
time 0 yields duration 0; and the duration of every converted test is
exactly this function of its time attribute. -/
theorem claim_C6_amended :
    (∀ (ts : Option String) (p : F64),
        jsMul (jsParseFloat (jsStrOfOpt ts)) f1000 = .fin p →
        ∃ d : Int, Junit.durationOf ts = .fin ⟨d, 0⟩ ∧
          (d : ℚ) ≤ f64Val p + 1 / 2 ∧ f64Val p + 1 / 2 < (d : ℚ) + 1) ∧
    (Junit.convertToCTRFTest ⟨none, none, none, some "1.234", none, none, false⟩).duration =
      .fin ⟨1234, 0⟩ ∧
    (Junit.convertToCTRFTest ⟨none, none, none, some "0", none, none, false⟩).duration =
      .fin ⟨0, 0⟩ ∧
    (∀ tc : Junit.JUnitTestCase,
        (Junit.convertToCTRFTest tc).duration = Junit.durationOf tc.time) := by
  refine ⟨?_, by decide, by decide, fun tc => rfl⟩
  intro ts p hp
  rw [Junit.durationOf, hp]
  exact jsMathRoundBracket p

/-- Witness for C6: the bracket at the concrete time 1.234, whose double
product with 1000 is the finite value 5427189394702336 times 2 to the
power -42 (exactly 1234). -/
theorem claim_C6_amended_witness :
    ∃ d : Int, Junit.durationOf (some "1.234") = .fin ⟨d, 0⟩ ∧
      (d : ℚ) ≤ f64Val ⟨5427189394702336, -42⟩ + 1 / 2 ∧
      f64Val ⟨5427189394702336, -42⟩ + 1 / 2 < (d : ℚ) + 1 :=
  claim_C6_amended.1 (some "1.234") ⟨5427189394702336, -42⟩ (by decide)

/-- C6 (counterexample): at time -0.0005 the double product with 1000 is
exactly minus one half; rounding to the nearest integer with ties away
from zero, as the claim states, gives -1, but the code (Math.round, ties
toward positive infinity) gives 0. -/
theorem claim_C6_counterexample :
    Junit.durationOf (some "-0.0005") = .fin ⟨0, 0⟩ ∧
    jsMul (jsParseFloat (jsStrOfOpt (some "-0.0005"))) f1000 =
      .fin ⟨-4503599627370496, -53⟩ ∧
    f64Val ⟨-4503599627370496, -53⟩ = -(1 / 2) ∧
    specRoundHalfAwayFromZero (-(1 / 2)) = -1 ∧
    (0 : Int) ≠ -1 := by
  refine ⟨by decide, by decide, ?_, ?_, by decide⟩
  · show ((-4503599627370496 : Int) : ℚ) * qpow2 (-53) = -(1 / 2)
    rw [qpow2]
    norm_num [show ((53 : Int)).toNat = 53 from rfl]
  · rw [specRoundHalfAwayFromZero]
    norm_num

/-- The positive rounding helper never produces NaN or a negative result:
its value is a positive infinity or a finite value with a natural
mantissa. -/
theorem roundPosCShape (num den : Nat) :
    roundPosC num den = .inf false ∨
      ∃ (mant : Nat) (e : Int), roundPosC num den = .fin ⟨(mant : Int), e⟩ := by
  simp only [roundPosC]
  split_ifs <;>
    first
      | exact Or.inl rfl
      | exact Or.inr ⟨_, _, rfl⟩

/-- Rounding a nonnegative rational to a double yields a positive infinity
or a finite value with nonnegative mantissa. -/
theorem mkFiniteFalseShape (num den : Nat) :
    mkFinite false num den = .inf false ∨
      ∃ (m e : Int), 0 ≤ m ∧ mkFinite false num den = .fin ⟨m, e⟩ := by
  rw [mkFinite]
  by_cases h0 : num = 0
  · rw [if_pos h0]
    exact Or.inr ⟨0, 0, le_refl 0, rfl⟩
  · rw [if_neg h0]
    rcases roundPosCShape num den with h | ⟨mant, e, h⟩
    · rw [h]
      exact Or.inl rfl
    · rw [h]
      exact Or.inr ⟨(mant : Int), e, Int.natCast_nonneg mant, by simp⟩

/-- Multiplying a nonnegative finite double by 1000 yields a positive
infinity or a finite value with nonnegative mantissa. -/
theorem jsMulF1000Nonneg (x : F64) (hx : 0 ≤ x.m) :
    jsMul (.fin x) f1000 = .inf false ∨
      ∃ (m e : Int), 0 ≤ m ∧ jsMul (.fin x) f1000 = .fin ⟨m, e⟩ := by
  have hp : decide (x.m * (1000 : Int) < 0) = false := by
    simp only [decide_eq_false_iff_not, not_lt]
    positivity
  have hj : jsMul (.fin x) f1000 = mulF64 x ⟨1000, 0⟩ := rfl
  rw [hj]
  simp only [mulF64, hp]
  split_ifs
  · exact mkFiniteFalseShape _ _
  · exact mkFiniteFalseShape _ _

/-- Math.round of a finite value with nonnegative mantissa is a nonnegative
integer. -/
theorem jsMathRoundNonneg (m e : Int) (hm : 0 ≤ m) :
    ∃ d : Int, jsMathRound (.fin ⟨m, e⟩) = .fin ⟨d, 0⟩ ∧ 0 ≤ d := by
  by_cases he : 0 ≤ e
  · refine ⟨m * 2 ^ e.toNat, ?_, by positivity⟩
    simp [jsMathRound, he]
  · refine ⟨(2 * m + 2 ^ (-e).toNat).fdiv (2 ^ ((-e).toNat + 1)), ?_, ?_⟩
    · rw [jsMathRound, if_neg he]
    · exact Int.fdiv_nonneg (by positivity) (by positivity)

/-- C7 (amended): durations are nonnegative integers except on negative
inputs.  TestNG: a missing or unparsable duration-ms attribute defaults to
0 and a nonnegative parse stays nonnegative (a negative attribute passes
through unchanged into the output test, and the converted test keeps the
record's duration verbatim).  JUnit: when the time attribute parses to a
finite nonnegative double, the duration is a nonnegative integer (or a
positive infinity for astronomically large times); when the time is missing
or non-numeric the duration is NaN, not an integer; and every converted
test's duration is exactly this function of its time attribute. -/
theorem claim_C7_amended :
    (∀ a : Option String, jsParseIntOpt a = none → jsParseIntD0 a = 0) ∧
    (∀ (a : Option String) (n : Int), jsParseIntOpt a = some n → 0 ≤ n →
        0 ≤ jsParseIntD0 a) ∧
    (∀ (jsDate : String → Option Int) (t : Testng.TTest) (m : Testng.TMethod)
        (tc : Testng.TestNGTestCase),
        Testng.mkMethodCase jsDate t m = some tc →
        tc.duration = jsParseIntD0 (getAttr (m.dollar.getD []) "duration-ms") ∧
        (Testng.convertToCTRFTest tc).duration = tc.duration) ∧
    (∀ (ts : Option String) (x : F64),
        jsParseFloat (jsStrOfOpt ts) = .fin x → 0 ≤ x.m →
        Junit.durationOf ts = .inf false ∨
          ∃ d : Int, Junit.durationOf ts = .fin ⟨d, 0⟩ ∧ 0 ≤ d) ∧
    (∀ ts : Option String, jsParseFloat (jsStrOfOpt ts) = .nan →
        Junit.durationOf ts = .nan) ∧
    (∀ tc : Junit.JUnitTestCase,
        (Junit.convertToCTRFTest tc).duration = Junit.durationOf tc.time) := by
  refine ⟨?_, ?_, ?_, ?_, ?_, fun tc => rfl⟩
  · intro a h
    rw [jsParseIntD0, h]
    rfl
  · intro a n h hn
    rw [jsParseIntD0, h]
    exact hn
  · intro jsDate t m tc h
    cases hmd : m.dollar with
    | none => simp [Testng.mkMethodCase, hmd] at h
    | some mb =>
        simp only [Testng.mkMethodCase, hmd] at h
        by_cases hcfg : (getAttr mb "is_config" == some "true") = true
        · rw [if_pos hcfg] at h; exact absurd h (by simp)
        · rw [if_neg hcfg] at h
          cases htd : t.dollar with
          | none => simp only [htd] at h; exact Option.noConfusion h
          | some tb =>
              simp only [htd] at h
              obtain rfl := Option.some.inj h
              exact ⟨by simp [Testng.mkCaseOf, hmd], rfl⟩
  · intro ts x hx hm
    rw [Junit.durationOf, hx]
    rcases jsMulF1000Nonneg x hm with h | ⟨m, e, hme, h⟩
    · rw [h]
      exact Or.inl rfl
    · rw [h]
      exact Or.inr (jsMathRoundNonneg m e hme)
  · intro ts h
    rw [Junit.durationOf, h]
    rfl

/-- Witness for C7: the regular method of a concrete TestNG report carries
its parsed duration, and the time 2 parses to a nonnegative double whose
duration is a nonnegative integer. -/
theorem claim_C7_witness :
    ((⟨"T: m", "pass", 7, 0, 0, none, none⟩ : Testng.TestNGTestCase).duration =
        jsParseIntD0 (getAttr
          ((some [("name", "m"), ("status", "pass"), ("duration-ms", "7")] :
            Option AttrBag).getD []) "duration-ms") ∧
      (Testng.convertToCTRFTest ⟨"T: m", "pass", 7, 0, 0, none, none⟩).duration =
        (⟨"T: m", "pass", 7, 0, 0, none, none⟩ : Testng.TestNGTestCase).duration) ∧
    (Junit.durationOf (some "2") = .inf false ∨
      ∃ d : Int, Junit.durationOf (some "2") = .fin ⟨d, 0⟩ ∧ 0 ≤ d) :=
  ⟨claim_C7_amended.2.2.1 dateStub ⟨some [("name", "T")], none⟩
      ⟨some [("name", "m"), ("status", "pass"), ("duration-ms", "7")], []⟩
      ⟨"T: m", "pass", 7, 0, 0, none, none⟩ (by decide),
   claim_C7_amended.2.2.2.1 (some "2") ⟨4503599627370496, -51⟩ (by decide) (by decide)⟩

/-- C7 (counterexample): a TestNG test-method whose duration-ms attribute
is -5 produces an output test with duration -5, a negative value, refuting
the claim that every output duration is nonnegative. -/
theorem claim_C7_counterexample :
    (Testng.convertTestngToCTRF dateStub
        (some ⟨some [("total", "1")],
          [⟨some [], some [⟨some [("name", "T")],
            some [⟨some [⟨some [("name", "m"), ("status", "FAIL"),
              ("duration-ms", "-5")], []⟩]⟩]⟩]⟩]⟩)
        none none).map (fun r => r.results.tests.map (fun t => t.duration)) =
      .ok [-5] ∧
    ¬ (0 : Int) ≤ -5 := by decide

end Claims
